import Mathlib

/-!
Verification of the autotier tiering engine (src/crawl.cpp, src/config.cpp)
against its natural-language specification.

The development shallowly embeds the engine's data model and operations:
machine integers become Nat with explicit `% 2^64` where C unsigned wraparound
matters, file system state becomes explicit association lists, and the
while-loops of `launch_crawlers` become fuelled recursions whose fuel bounds
the loop iteration count (each iteration removes one list element, so a fuel
equal to the list length reproduces the loop exactly).
-/

namespace Autotier

/-- A `struct utimbuf`: access time and modification time, as recorded for a
file by `last_times` (crawl.cpp:180-187) when its record is created. -/
structure FTimes where
  actime : Nat
  modtime : Nat
deriving DecidableEq, Repr

/-- A `File` record as enrolled by the crawler (crawl.hpp): the fields the
tiering loops inspect.  `fid` is a model-level identity used only to talk
about "the same file" across states; `pinned_to` is the pin path, with
`none` standing for the empty path (`pinned_to.empty()`). -/
structure MFile where
  fid : Nat
  size : Nat
  priority : Nat
  times : FTimes
  pinned_to : Option Nat
deriving DecidableEq, Repr

/-- The comparator passed to `this->files.sort` in `Tier::crawl`
(crawl.cpp:82-86):
`(a.priority == b.priority) ? a.times.actime > b.times.actime
                            : a.priority > b.priority`. -/
def fileBefore (a b : MFile) : Bool :=
  if a.priority = b.priority then decide (a.times.actime > b.times.actime)
  else decide (a.priority > b.priority)

/-- Stable insertion used to model `std::list::sort` with the comparator
above: an element is placed before the first element it compares before,
so elements equivalent under the comparator keep their relative order,
matching the stability guarantee of `std::list::sort`. -/
def insertFile (f : MFile) : List MFile → List MFile
  | [] => [f]
  | g :: gs => if fileBefore f g then f :: g :: gs else g :: insertFile f gs

/-- Stable sort by `fileBefore`, modelling `std::list::sort` in
`Tier::crawl` (crawl.cpp:82-86). -/
def sortFiles : List MFile → List MFile
  | [] => []
  | f :: fs => insertFile f (sortFiles fs)

/-- The insertion loop at crawl.cpp:107-109 (and 131-133): skip all entries
with strictly greater priority, then insert. -/
def insertByPriority (f : MFile) : List MFile → List MFile
  | [] => [f]
  | g :: gs => if g.priority > f.priority then g :: insertByPriority f gs
               else f :: g :: gs

/-- File names are lists of character codes (kept as `Nat` so concrete
instances evaluate inside the kernel; the ASCII codes used below:
`.` 46, `~` 126, `$` 36, `#` 35, and letters by their ASCII values). -/
abbrev Name := List Nat

/-- Does the second list start with the first? -/
def startsWithL : Name → Name → Bool
  | [], _ => true
  | _ :: _, [] => false
  | p :: ps, c :: cs => (p == c) && startsWithL ps cs

/-- Does the second list end with the first? -/
def endsWithL (p n : Name) : Bool :=
  startsWithL p.reverse n.reverse

/-- The character codes of `".swp"`. -/
def dotSwp : Name := [46, 115, 119, 112]

/-- The character codes of `".~lock."`. -/
def dotTildeLock : Name := [46, 126, 108, 111, 99, 107, 46]

/-- The character codes of `"~$"`. -/
def tildeDollar : Name := [126, 36]

/-- The crawler's skip pattern (crawl.cpp:77):
`regex_match(filename, regex("(^\..*(\.swp)$|^(\.~lock\.).*#$|^(~\$))"))`.
`std::regex_match` succeeds only when the WHOLE name matches one of the three
alternatives:
* `^\..*(\.swp)$`  — a leading dot, anything, then `.swp`: the name is
  `"." ++ mid ++ ".swp"`, i.e. it starts with `.` and the remainder after
  that dot ends with `.swp`;
* `^(\.~lock\.).*#$` — `".~lock." ++ mid ++ "#"`;
* `^(~\$)` — this alternative has NO trailing `.*`, so under `regex_match`
  it matches only the two-character name `~$` itself.
ECMAScript `.` does not match a newline; file names containing newlines are
outside the model. -/
def excluded (name : Name) : Bool :=
  (startsWithL [46] name && endsWithL dotSwp (name.drop 1))
  || (startsWithL dotTildeLock name && endsWithL [35] (name.drop 7))
  || (name == tildeDollar)

/-- Written from the spec's words, for comparison with `excluded`: the spec
lists the skip patterns as globs — leading-dot `.*.swp`, `.~lock.*#`, and
`~$*`, the last matching every name that starts with `~$`. -/
def specSkipPattern (name : Name) : Bool :=
  (startsWithL [46] name && endsWithL dotSwp (name.drop 1))
  || (startsWithL dotTildeLock name && endsWithL [35] (name.drop 7))
  || (startsWithL tildeDollar name)

/-- A directory subtree as the crawler observes it (crawl.cpp:71-80).
Each constructor is one directory entry followed by the rest of its
directory.  `dir` carries an `isSymlink` flag because the code tests
`is_directory(*itr)` FIRST, and `boost::filesystem::is_directory` follows
symbolic links: an entry that is a symlink whose target is a directory
satisfies the test and is recursed into.  Non-directory entries are enrolled
only when `!is_symlink(*itr)` and the name is not excluded. -/
inductive Forest where
  | nil : Forest
  | reg (name : Name) (rest : Forest) : Forest
  | symfile (name : Name) (rest : Forest) : Forest
  | dir (name : Name) (isSymlink : Bool) (children : Forest) (rest : Forest) : Forest

/-- `Tier::crawl` (crawl.cpp:71-87), as the list of file names it enrolls
(`this->files.push_back`): directories (including symlinks to directories)
are recursed into; other entries are enrolled iff they are not symlinks and
their name does not match the skip regex.  The final sort does not change
which names are enrolled. -/
def crawl : Forest → List Name
  | .nil => []
  | .reg n rest => (if excluded n then [] else [n]) ++ crawl rest
  | .symfile _ rest => crawl rest
  | .dir _ _ children rest => crawl children ++ crawl rest

/-- The character codes of `"~$doc"`. -/
def tildeDollarDoc : Name := [126, 36, 100, 111, 99]

/-- The parse-failure sentinel used by `Config::load` / `Config::verify`
(declared in config.hpp, which is not part of src/; `-1` per the usual
convention — the watermark check treats it as one more error case next to
`> 100` and `< 0`, so the claims do not hinge on its exact value). -/
def ERR : Int := -1

/-- One tier's configurable fields as `Config::verify` inspects them
(config.cpp:171-198).  `dir_exists` abstracts `is_directory(tptr->dir)`. -/
structure CTier where
  dir_exists : Bool
  expires : Int
  max_watermark : Int
  min_watermark : Int
deriving DecidableEq, Repr

/-- `Config::verify` (config.cpp:171-198), on the tier list read from the
configuration (highest to lowest).  Returns `true` when there are errors.
`highest_tier == NULL || lowest_tier == NULL` is the empty list and
`highest_tier == lowest_tier` the singleton list, so both fatal tier-count
cases are `length < 2`.  The per-tier loop ORs in a missing directory, an
`expires` parse error, and `max_watermark == ERR || > 100 || < 0`.
`min_watermark` is parsed by `Config::load` but never inspected here. -/
def Config.verify (tiers : List CTier) : Bool :=
  decide (tiers.length < 2)
  || tiers.any (fun t =>
      !t.dir_exists || decide (t.expires = ERR)
      || decide (t.max_watermark = ERR) || decide (t.max_watermark > 100)
      || decide (t.max_watermark < 0))

/-- `2^64`, the modulus of `fsblkcnt_t` / `unsigned long` arithmetic,
written as a literal so that `omega` and kernel evaluation handle it. -/
def U64 : Nat := 18446744073709551616

/-- C unsigned 64-bit subtraction `a - b` (wraps modulo `2^64`). -/
def u64sub (a b : Nat) : Nat :=
  (a % U64 + U64 - b % U64) % U64

/-- The `statvfs` fields `get_fs_usage` reads (crawl.cpp:189-200). -/
structure VfsStats where
  blocks : Nat
  bfree : Nat
  bsize : Nat
deriving DecidableEq, Repr

/-- `get_fs_usage` (crawl.cpp:189-200).  `ok` is whether `statvfs`
succeeded (`false` models a `-1` return, which the function propagates as
the sentinel `-1`).  With a file pointer, `f_bfree -= st_size / f_bsize`
first (unsigned arithmetic, size rounded DOWN to whole blocks); the result
is `(f_blocks - f_bfree) * 100 / f_blocks` in `fsblkcnt_t` (64-bit
unsigned) arithmetic.  The final `(int)` cast is the identity for all the
in-range values the theorems speak about. -/
def get_fs_usage (ok : Bool) (s : VfsStats) (fsize : Option Nat) : Int :=
  if ok then
    let bfree := match fsize with
      | none => s.bfree
      | some sz => u64sub s.bfree (sz / s.bsize)
    Int.ofNat (u64sub s.blocks bfree * 100 % U64 / (s.blocks % U64))
  else -1

/-- Written from the spec's words, for comparison with `get_fs_usage`:
"the percentage after hypothetically adding `size` bytes" — the usage
percentage of the filesystem once `sz` more bytes are stored on it,
computed exactly over bytes:
`⌊((blocks_used · bsize) + sz) · 100 / (blocks_total · bsize)⌋`. -/
def usage_pct_with_spec (s : VfsStats) (sz : Nat) : Int :=
  Int.ofNat (((s.blocks - s.bfree) * s.bsize + sz) * 100 / (s.blocks * s.bsize))

/-- The `struct stat` metadata the mover reads and writes: owner, group,
permission bits, access and modification times. -/
structure FileMeta where
  uid : Nat
  gid : Nat
  mode : Nat
  atime : Nat
  mtime : Nat
deriving DecidableEq, Repr

/-- A regular file on disk: its byte content, whether the process can open
it for reading, and its metadata. -/
structure RegFile where
  content : List Nat
  readable : Bool
  meta : FileMeta
deriving DecidableEq, Repr

/-- A filesystem node: a regular file or a symbolic link to another path. -/
inductive Node where
  | file (f : RegFile) : Node
  | symlink (target : Nat) : Node
deriving DecidableEq, Repr

/-- The filesystem the mover manipulates: a map from paths (abstracted to
`Nat`) to nodes, `none` meaning nothing exists at that path. -/
abbrev MoverFs := Nat → Option Node

/-- Look up the node at a path. -/
def lookupNode (fs : MoverFs) (p : Nat) : Option Node :=
  fs p

/-- Create or overwrite the node at a path. -/
def setNode (fs : MoverFs) (p : Nat) (n : Node) : MoverFs :=
  fun q => if q = p then some n else fs q

/-- `fs::remove`: delete whatever node is at a path. -/
def removeNode (fs : MoverFs) (p : Nat) : MoverFs :=
  fun q => if q = p then none else fs q

/-- `open(p, O_RDONLY)` followed by draining reads: `some content` when the
path opens, `none` when `open` returns `-1` (missing path, unreadable file).
`open` follows one symlink level, enough for the states the theorems use. -/
def openRead (fs : MoverFs) (p : Nat) : Option (List Nat) :=
  match lookupNode fs p with
  | some (.file f) => if f.readable then some f.content else none
  | some (.symlink t) =>
      match lookupNode fs t with
      | some (.file f) => if f.readable then some f.content else none
      | _ => none
  | none => none

/-- The byte stream `verify_copy` hashes for one path (crawl.cpp:149-160):
when `open` fails it returns `-1`, every `read(-1, ...)` fails, the loop
body never runs, and the digest is taken over ZERO bytes — the empty
stream. -/
def streamRead (fs : MoverFs) (p : Nat) : List Nat :=
  (openRead fs p).getD []

/-- `verify_copy` (crawl.cpp:144-178): XXH64-digest both streams and compare.
The digest function is abstract (`hash`): every property proved here holds
for the real XXH64 as for any other function, because the code only
compares the two digests for equality.  Note there is NO check that either
`open` succeeded. -/
def verify_copy (hash : List Nat → Nat) (fs : MoverFs) (src dst : Nat) : Bool :=
  hash (streamRead fs src) == hash (streamRead fs dst)

/-- Replace the metadata of the regular file at `p` (no-op when `p` is not
a regular file). -/
def updateMeta (fs : MoverFs) (p : Nat) (g : FileMeta → FileMeta) : MoverFs :=
  match lookupNode fs p with
  | some (.file f) => setNode fs p (.file { f with meta := g f.meta })
  | _ => fs

/-- `copy_ownership_and_perms` (crawl.cpp:137-142): `stat` the source, then
`chown` and `chmod` the destination with the source's uid/gid/mode.  The
theorems only use states where the source is a regular file. -/
def copy_ownership_and_perms (fs : MoverFs) (src dst : Nat) : MoverFs :=
  match lookupNode fs src with
  | some (.file f) =>
      updateMeta fs dst (fun m =>
        { m with uid := f.meta.uid, gid := f.meta.gid, mode := f.meta.mode })
  | _ => fs

/-- `utime(p, &times)` (crawl.cpp:104/128): overwrite access and
modification times. -/
def utimePath (fs : MoverFs) (p : Nat) (t : FTimes) : MoverFs :=
  updateMeta fs p (fun m => { m with atime := t.actime, mtime := t.modtime })

/-- `create_symlink(target, link)`: install a symlink at `link` pointing at
`target`. -/
def create_symlink (fs : MoverFs) (target link : Nat) : MoverFs :=
  setNode fs link (.symlink target)

/-- Is the node at `p` a symbolic link (`is_symlink`)? -/
def isSymlinkAt (fs : MoverFs) (p : Nat) : Bool :=
  match lookupNode fs p with
  | some (.symlink _) => true
  | _ => false

/-- The physical outcome of one `copy_file` call, supplied by the
environment: the digest function in use and the regular file the raw copy
left at the destination.  When nothing interferes, `written.content` equals
the source's content; a concurrent writer or an I/O fault makes it differ —
exactly the situation the hash comparison exists to catch. -/
structure CopyEnv where
  hash : List Nat → Nat
  written : RegFile

/-- The state of the filesystem inside `Tier::tier_down` right after
`copy_file(file.path, to_here)` and `copy_ownership_and_perms(file.path,
to_here)` (crawl.cpp:95-96): the raw copy wrote `env.written` at `dst`, then
uid/gid/mode were copied over from `src`. -/
def td_copied (env : CopyEnv) (fs : MoverFs) (src dst : Nat) : MoverFs :=
  copy_ownership_and_perms (setNode fs dst (.file env.written)) src dst

/-- The verification outcome `Tier::tier_down` branches on (crawl.cpp:97):
`verify_copy` evaluated on the post-copy, post-chown state. -/
def tier_down_verify (env : CopyEnv) (fs : MoverFs) (src dst : Nat) : Bool :=
  verify_copy env.hash (td_copied env fs src dst) src dst

/-- `Tier::tier_down` (crawl.cpp:89-111), its filesystem effect on the
source path `src` (= `file.path`) and destination `dst` (= `to_here`),
where `times` is the FileRecord's captured `file.times`:
copy, `copy_ownership_and_perms`, then — only if `verify_copy` succeeds —
`remove(file.path)` and `create_symlink(to_here, file.path)`; finally
`utime(to_here, &file.times)` runs regardless of the verification
outcome. -/
def tier_down (env : CopyEnv) (fs : MoverFs) (src dst : Nat) (times : FTimes) :
    MoverFs :=
  utimePath
    (if tier_down_verify env fs src dst
     then create_symlink (removeNode (td_copied env fs src dst) src) dst src
     else td_copied env fs src dst)
    dst times

/-- The state inside `Tier::tier_up` after the possible removal of a stale
symlink at the destination (crawl.cpp:116-118), `copy_file`, and
`copy_ownership_and_perms` (crawl.cpp:120-121). -/
def tu_copied (env : CopyEnv) (fs : MoverFs) (src dst : Nat) : MoverFs :=
  copy_ownership_and_perms
    (setNode (if isSymlinkAt fs dst then removeNode fs dst else fs) dst
      (.file env.written))
    src dst

/-- The verification outcome `Tier::tier_up` branches on (crawl.cpp:122). -/
def tier_up_verify (env : CopyEnv) (fs : MoverFs) (src dst : Nat) : Bool :=
  verify_copy env.hash (tu_copied env fs src dst) src dst

/-- One `Tier`'s configuration fields as `launch_crawlers` reads them:
the pool directory (abstracted to a `Nat` identifier) and the two
watermarks (`int`s in the source). -/
structure PTier where
  dir : Nat
  max_watermark : Int
  min_watermark : Int
deriving DecidableEq, Repr

instance : Inhabited PTier := ⟨⟨0, 0, 0⟩⟩

/-- A tier's filesystem as `statvfs` reports it: whether the call
succeeds, and the block counts. -/
structure TierFs where
  ok : Bool
  stats : VfsStats
deriving DecidableEq, Repr

/-- The number of blocks a file of `sz` bytes occupies on a filesystem
with block size `bsize`.  This models the PHYSICAL filesystem's block
accounting (an environment assumption — the code itself only reads
`statvfs`): a partial block still occupies a whole block. -/
def physBlocks (sz bsize : Nat) : Nat :=
  (sz + bsize - 1) / bsize

/-- The state `launch_crawlers` (crawl.cpp:39-69) threads through a pass:
per-tier candidate lists (`tptr->files`, index 0 = highest tier), the
regular files physically on each tier's disk, each tier's filesystem
stats, the number of `copy_file` calls performed, and a log of every
`(source tier directory, file)` pair handed to `tier_down`/`tier_up`. -/
structure PassSt where
  lists : Nat → List MFile
  disk : Nat → List MFile
  fss : Nat → TierFs
  copies : Nat
  movedLog : List (Nat × MFile)

/-- The filesystem effect of physically moving `sz` bytes from tier `src`
to tier `dst`: blocks are freed at the source and allocated at the
destination (environment model, see `physBlocks`). -/
def moveBlocks (fss : Nat → TierFs) (src dst : Nat) (sz : Nat) :
    Nat → TierFs :=
  fun j =>
    if j = src then
      { fss src with stats := { (fss src).stats with
          bfree := (fss src).stats.bfree + physBlocks sz (fss src).stats.bsize } }
    else if j = dst then
      { fss dst with stats := { (fss dst).stats with
          bfree := (fss dst).stats.bfree - physBlocks sz (fss dst).stats.bsize } }
    else fss j

/-- The move guard at crawl.cpp:51 and crawl.cpp:61:
`pinned_to.empty() || pinned_to != tptr->dir` — the file is relocated
unless it is pinned precisely to the tier it is in. -/
def moveAllowed (f : MFile) (d : Nat) : Bool :=
  f.pinned_to.isNone || decide (f.pinned_to ≠ some d)

/-- The whole-state effect of `tptr->tier_down(files.back())`
(crawl.cpp:89-111) with verification succeeding, at the list level: one
copy, the file leaves tier `i`'s disk and list and joins tier `i+1`'s disk
and — by the priority-ordered insertion at crawl.cpp:107-109 — its list;
blocks move between the two filesystems; the call is logged. -/
def applyTierDown (tiers : List PTier) (i : Nat) (f : MFile) (st : PassSt) :
    PassSt where
  lists := fun j =>
    if j = i then (st.lists i).dropLast
    else if j = i + 1 then insertByPriority f (st.lists (i + 1))
    else st.lists j
  disk := fun j =>
    if j = i then (st.disk i).erase f
    else if j = i + 1 then st.disk (i + 1) ++ [f]
    else st.disk j
  fss := moveBlocks st.fss i (i + 1) f.size
  copies := st.copies + 1
  movedLog := st.movedLog ++ [((tiers.getD i default).dir, f)]

/-- The whole-state effect of `tptr->tier_up(files.front())`
(crawl.cpp:113-135) with verification succeeding: the mirror image of
`applyTierDown`, moving the front file one tier up (the phase only invokes
it with `i ≥ 1`). -/
def applyTierUp (tiers : List PTier) (i : Nat) (f : MFile) (st : PassSt) :
    PassSt where
  lists := fun j =>
    if j = i then (st.lists i).tail
    else if j = i - 1 then insertByPriority f (st.lists (i - 1))
    else st.lists j
  disk := fun j =>
    if j = i then (st.disk i).erase f
    else if j = i - 1 then st.disk (i - 1) ++ [f]
    else st.disk j
  fss := moveBlocks st.fss i (i - 1) f.size
  copies := st.copies + 1
  movedLog := st.movedLog ++ [((tiers.getD i default).dir, f)]

/-- `files.pop_back()` on tier `i` — the skip branch at crawl.cpp:54. -/
def popBackAt (i : Nat) (st : PassSt) : PassSt :=
  { st with lists := fun j => if j = i then (st.lists i).dropLast else st.lists j }

/-- `files.pop_front()` on tier `i` — the skip branch at crawl.cpp:64. -/
def popFrontAt (i : Nat) (st : PassSt) : PassSt :=
  { st with lists := fun j => if j = i then (st.lists i).tail else st.lists j }

/-- The tier-down while-loop (crawl.cpp:50-56):
`while(!files.empty() && get_fs_usage(dir) >= max_watermark)` move or skip
the BACK file.  Every iteration removes one element from tier `i`'s list,
so running with fuel equal to the list's length reproduces the loop
exactly (when the fuel reaches 0 the list is empty and the loop would have
stopped anyway). -/
def tierDownLoop (tiers : List PTier) (i : Nat) : Nat → PassSt → PassSt
  | 0, st => st
  | fuel + 1, st =>
    match (st.lists i).getLast? with
    | none => st
    | some f =>
      if get_fs_usage (st.fss i).ok (st.fss i).stats none
          ≥ (tiers.getD i default).max_watermark then
        if moveAllowed f (tiers.getD i default).dir then
          tierDownLoop tiers i fuel (applyTierDown tiers i f st)
        else
          tierDownLoop tiers i fuel (popBackAt i st)
      else st

/-- The tier-down loop for tier `i`, with its exact fuel. -/
def tierDownTier (tiers : List PTier) (i : Nat) (st : PassSt) : PassSt :=
  tierDownLoop tiers i (st.lists i).length st

/-- The tier-down for-loop (crawl.cpp:49-57): every tier except the lowest,
from highest to lowest. -/
def tierDownPhase (tiers : List PTier) (st : PassSt) : PassSt :=
  (List.range (tiers.length - 1)).foldl (fun s i => tierDownTier tiers i s) st

/-- The tier-up while-loop (crawl.cpp:60-66):
`while(!files.empty() && get_fs_usage(higher->dir, &files.front()) <
higher->min_watermark)` move or skip the FRONT file.  Note that when
`statvfs` fails on the higher tier the guard compares `-1 <
min_watermark`, which is TRUE for any non-negative watermark. -/
def tierUpLoop (tiers : List PTier) (i : Nat) : Nat → PassSt → PassSt
  | 0, st => st
  | fuel + 1, st =>
    match (st.lists i).head? with
    | none => st
    | some f =>
      if get_fs_usage (st.fss (i - 1)).ok (st.fss (i - 1)).stats (some f.size)
          < (tiers.getD (i - 1) default).min_watermark then
        if moveAllowed f (tiers.getD i default).dir then
          tierUpLoop tiers i fuel (applyTierUp tiers i f st)
        else
          tierUpLoop tiers i fuel (popFrontAt i st)
      else st

/-- The tier-up loop for tier `i`, with its exact fuel. -/
def tierUpTier (tiers : List PTier) (i : Nat) (st : PassSt) : PassSt :=
  tierUpLoop tiers i (st.lists i).length st

/-- The tier-up for-loop (crawl.cpp:59-67): every tier except the highest,
from lowest to highest. -/
def tierUpPhase (tiers : List PTier) (st : PassSt) : PassSt :=
  ((List.range (tiers.length - 1)).reverse.map (fun k => k + 1)).foldl
    (fun s i => tierUpTier tiers i s) st

/-- `launch_crawlers` (crawl.cpp:39-69): crawl every tier (building each
tier's sorted candidate list from the regular files on its disk — symlink
shims are not enrolled), then the tier-down phase, then the tier-up
phase.  Verification is modelled as succeeding for every copy (the
mismatch branch is `tier_down`/`tier_up`'s concern, proved separately). -/
def launch_crawlers (tiers : List PTier) (disk : Nat → List MFile)
    (fss : Nat → TierFs) : PassSt :=
  tierUpPhase tiers (tierDownPhase tiers
    { lists := fun j => sortFiles (disk j)
      disk := disk
      fss := fss
      copies := 0
      movedLog := [] })

/-- The statvfs-failure scenario: two tiers, `statvfs` fails on the top
tier's directory, one file sits on the bottom tier. -/
def failTiers : List PTier := [⟨0, 50, 50⟩, ⟨1, 100, 0⟩]

/-- Disk contents for the statvfs-failure scenario. -/
def failDisk : Nat → List MFile :=
  fun j => if j = 1 then [⟨1, 60, 5, ⟨5, 5⟩, none⟩] else []

/-- Filesystem stats for the statvfs-failure scenario: the top tier's
`statvfs` fails. -/
def failFss : Nat → TierFs :=
  fun j => if j = 0 then ⟨false, ⟨100, 100, 1⟩⟩ else ⟨true, ⟨100, 40, 1⟩⟩

/-- The oscillation scenario: the top tier's `min_watermark` (90) exceeds
its `max_watermark` (50), a configuration `Config::verify` accepts because
it never validates `min_watermark`. -/
def oscTiers : List PTier := [⟨0, 50, 90⟩, ⟨1, 100, 0⟩]

/-- Disk contents for the oscillation scenario: one 60-byte file on the
bottom tier. -/
def oscDisk : Nat → List MFile :=
  fun j => if j = 1 then [⟨1, 60, 5, ⟨5, 5⟩, none⟩] else []

/-- Filesystem stats for the oscillation scenario: both filesystems have
100 one-byte blocks; the top tier is empty, the bottom holds the file. -/
def oscFss : Nat → TierFs :=
  fun j => if j = 0 then ⟨true, ⟨100, 100, 1⟩⟩ else ⟨true, ⟨100, 40, 1⟩⟩

/-- The first pass of the oscillation scenario. -/
def oscPass1 : PassSt := launch_crawlers oscTiers oscDisk oscFss

/-- The second pass of the oscillation scenario, run on the filesystem
state the first pass left behind, with nothing changed in between. -/
def oscPass2 : PassSt := launch_crawlers oscTiers oscPass1.disk oscPass1.fss

/-- `Tier::tier_up` (crawl.cpp:113-135), its filesystem effect: remove a
pre-existing symlink at the destination, copy, `copy_ownership_and_perms`,
then — only if `verify_copy` succeeds — `remove(file.path)`; no symlink is
created; finally `utime` runs regardless. -/
def tier_up (env : CopyEnv) (fs : MoverFs) (src dst : Nat) (times : FTimes) :
    MoverFs :=
  utimePath
    (if tier_up_verify env fs src dst
     then removeNode (tu_copied env fs src dst) src
     else tu_copied env fs src dst)
    dst times

end Autotier

namespace Autotier

/-- C3: the comparator applied to FileRecords places `a` before `b` iff
`a.priority > b.priority`, or the priorities are equal and `a`'s access time
is greater than `b`'s (priority descending, access time descending as
tie-break). -/
theorem fileBefore_iff (a b : MFile) :
    fileBefore a b = true ↔
      (a.priority > b.priority ∨
        (a.priority = b.priority ∧ a.times.actime > b.times.actime)) := by
  unfold fileBefore
  split
  · rename_i h
    simp [h]
  · rename_i h
    simp [h]

/-- C2 fails on the code: the crawler enrolls the regular file `~$doc`
although its name matches the spec's skip pattern `~$*`, because the regex
alternative `^(~\$)` under `regex_match` matches only the exact name `~$`;
and a symlink whose target is a directory IS followed (its children are
enrolled), because `is_directory(*itr)` is tested before `is_symlink`. -/
theorem crawl_enrolls_skipped_name :
    crawl (Forest.reg tildeDollarDoc Forest.nil) = [tildeDollarDoc]
    ∧ specSkipPattern tildeDollarDoc = true
    ∧ crawl (Forest.dir [100] true (Forest.reg [97] Forest.nil) Forest.nil) = [[97]] := by
  refine ⟨?_, ?_, ?_⟩ <;> decide

/-- C6 fails on the code as stated: a configuration whose `min_watermark`
is 200 — a tier watermark outside [0,100] — passes `Config::verify`
without error (`verify` never reads `min_watermark`), so loading does not
reject it. -/
theorem Config_verify_ignores_min_watermark :
    Config.verify [⟨true, 0, 80, 200⟩, ⟨true, 0, 80, 50⟩] = false
    ∧ (200 : Int) > 100 := by
  decide

/-- C6 amended: configuration verification reports a fatal error iff there
are fewer than two tiers, or some tier's directory does not exist, or some
tier's `expires` is the parse-error sentinel, or some tier's
`max_watermark` is outside [0,100] (or the sentinel); `min_watermark` is
not validated. -/
theorem Config_verify_iff (tiers : List CTier) :
    Config.verify tiers = true ↔
      (tiers.length < 2 ∨
        ∃ t ∈ tiers, t.dir_exists = false ∨ t.expires = ERR ∨
          t.max_watermark = ERR ∨ t.max_watermark > 100 ∨ t.max_watermark < 0) := by
  simp only [Config.verify, Bool.or_eq_true, decide_eq_true_eq, List.any_eq_true,
    Bool.not_eq_true']
  aesop

/-- C8 fails on the code as stated: on a filesystem of 2 blocks of 4096
bytes with both free, projecting a file of 8191 bytes yields 50% from
`get_fs_usage` (8191 bytes round DOWN to 1 block), while the percentage
after actually adding 8191 bytes is 99% — the code is not "the percentage
after hypothetically adding s bytes". -/
theorem get_fs_usage_with_file_rounds_down :
    get_fs_usage true ⟨2, 2, 4096⟩ (some 8191) = 50
    ∧ usage_pct_with_spec ⟨2, 2, 4096⟩ 8191 = 99 := by
  constructor <;> decide

/-- C8 amended: `usage_pct(dir)` returns `⌊blocks_used · 100 / blocks_total⌋`
as claimed, and `usage_pct_with(dir, s)` returns
`⌊(blocks_used + ⌊s / bsize⌋) · 100 / blocks_total⌋` — the hypothetical
addition first rounds `s` DOWN to whole blocks (`st_size / f_bsize`), so a
remainder of less than one block is ignored.  Hypotheses keep the unsigned
64-bit arithmetic away from wraparound. -/
theorem get_fs_usage_formula (s : VfsStats) (sz : Nat)
    (hlt : s.blocks < U64)
    (hfree : s.bfree ≤ s.blocks)
    (hsz : sz / s.bsize ≤ s.bfree)
    (hmul : (s.blocks - s.bfree + sz / s.bsize) * 100 < U64) :
    get_fs_usage true s none = Int.ofNat ((s.blocks - s.bfree) * 100 / s.blocks)
    ∧ get_fs_usage true s (some sz) =
        Int.ofNat ((s.blocks - s.bfree + sz / s.bsize) * 100 / s.blocks) := by
  have hfl : s.bfree < U64 := lt_of_le_of_lt hfree hlt
  have h1 : u64sub s.blocks s.bfree = s.blocks - s.bfree := by
    simp only [u64sub, U64] at *
    omega
  have h2 : u64sub s.bfree (sz / s.bsize) = s.bfree - sz / s.bsize := by
    simp only [u64sub, U64] at *
    omega
  have h3 : u64sub s.blocks (s.bfree - sz / s.bsize)
      = s.blocks - s.bfree + sz / s.bsize := by
    simp only [u64sub, U64] at *
    omega
  have hmod : s.blocks % U64 = s.blocks := Nat.mod_eq_of_lt hlt
  have hstep : s.blocks - s.bfree ≤ s.blocks - s.bfree + sz / s.bsize :=
    Nat.le_add_right _ _
  have hm : (s.blocks - s.bfree) * 100 < U64 :=
    Nat.lt_of_le_of_lt (Nat.mul_le_mul_right 100 hstep) hmul
  constructor
  · simp only [get_fs_usage, if_true, h1, hmod]
    rw [Nat.mod_eq_of_lt hm]
  · simp only [get_fs_usage, if_true, h2, h3, hmod]
    rw [Nat.mod_eq_of_lt hmul]

/-- Witness for `get_fs_usage_formula`: a 100-block filesystem with 40
free blocks of 4096 bytes and a projected file of 8191 bytes. -/
theorem get_fs_usage_formula_witness :
    get_fs_usage true ⟨100, 40, 4096⟩ none = Int.ofNat ((100 - 40) * 100 / 100)
    ∧ get_fs_usage true ⟨100, 40, 4096⟩ (some 8191) =
        Int.ofNat ((100 - 40 + 8191 / 4096) * 100 / 100) :=
  get_fs_usage_formula ⟨100, 40, 4096⟩ 8191 (by decide) (by decide) (by decide)
    (by decide)

theorem lookupNode_setNode_self (fs : MoverFs) (p : Nat) (n : Node) :
    lookupNode (setNode fs p n) p = some n := by
  simp [lookupNode, setNode]

theorem lookupNode_setNode_ne (fs : MoverFs) (p q : Nat) (n : Node) (h : q ≠ p) :
    lookupNode (setNode fs p n) q = lookupNode fs q := by
  simp [lookupNode, setNode, h]

theorem lookupNode_removeNode_self (fs : MoverFs) (p : Nat) :
    lookupNode (removeNode fs p) p = none := by
  simp [lookupNode, removeNode]

theorem lookupNode_removeNode_ne (fs : MoverFs) (p q : Nat) (h : q ≠ p) :
    lookupNode (removeNode fs p) q = lookupNode fs q := by
  simp [lookupNode, removeNode, h]

theorem lookupNode_updateMeta_ne (fs : MoverFs) (p q : Nat)
    (g : FileMeta → FileMeta) (h : q ≠ p) :
    lookupNode (updateMeta fs p g) q = lookupNode fs q := by
  unfold updateMeta
  split
  · exact lookupNode_setNode_ne _ _ _ _ h
  · rfl

theorem lookupNode_updateMeta_self (fs : MoverFs) (p : Nat)
    (g : FileMeta → FileMeta) (f : RegFile)
    (h : lookupNode fs p = some (Node.file f)) :
    lookupNode (updateMeta fs p g) p
      = some (Node.file { f with meta := g f.meta }) := by
  unfold updateMeta
  split
  · rename_i f2 heq
    rw [h] at heq
    simp only [Option.some.injEq, Node.file.injEq] at heq
    subst heq
    exact lookupNode_setNode_self _ _ _
  · rename_i hno
    exact absurd h (hno f)

theorem copy_ownership_and_perms_eq (fs : MoverFs) (src dst : Nat) (f : RegFile)
    (h : lookupNode fs src = some (Node.file f)) :
    copy_ownership_and_perms fs src dst
      = updateMeta fs dst (fun m =>
          { m with uid := f.meta.uid, gid := f.meta.gid, mode := f.meta.mode }) := by
  unfold copy_ownership_and_perms
  split
  · rename_i f2 heq
    rw [h] at heq
    simp only [Option.some.injEq, Node.file.injEq] at heq
    subst heq
    rfl
  · rename_i hno
    exact absurd h (hno f)

theorem td_copied_src (env : CopyEnv) (fs : MoverFs) (src dst : Nat)
    (f : RegFile) (hne : src ≠ dst)
    (hsrc : lookupNode fs src = some (Node.file f)) :
    lookupNode (td_copied env fs src dst) src = some (Node.file f) := by
  have h1 : lookupNode (setNode fs dst (Node.file env.written)) src
      = some (Node.file f) := by
    rw [lookupNode_setNode_ne _ _ _ _ hne]
    exact hsrc
  rw [td_copied, copy_ownership_and_perms_eq _ _ _ _ h1,
    lookupNode_updateMeta_ne _ _ _ _ hne]
  exact h1

theorem td_copied_dst (env : CopyEnv) (fs : MoverFs) (src dst : Nat)
    (f : RegFile) (hne : src ≠ dst)
    (hsrc : lookupNode fs src = some (Node.file f)) :
    lookupNode (td_copied env fs src dst) dst
      = some (Node.file { env.written with meta :=
          { env.written.meta with
              uid := f.meta.uid, gid := f.meta.gid, mode := f.meta.mode } }) := by
  have h1 : lookupNode (setNode fs dst (Node.file env.written)) src
      = some (Node.file f) := by
    rw [lookupNode_setNode_ne _ _ _ _ hne]
    exact hsrc
  rw [td_copied, copy_ownership_and_perms_eq _ _ _ _ h1]
  exact lookupNode_updateMeta_self _ _ _ _ (lookupNode_setNode_self _ _ _)

theorem tu_base_src (fs : MoverFs) (src dst : Nat) (hne : src ≠ dst) :
    lookupNode (if isSymlinkAt fs dst then removeNode fs dst else fs) src
      = lookupNode fs src := by
  split
  · exact lookupNode_removeNode_ne _ _ _ hne
  · rfl

theorem tu_copied_src (env : CopyEnv) (fs : MoverFs) (src dst : Nat)
    (f : RegFile) (hne : src ≠ dst)
    (hsrc : lookupNode fs src = some (Node.file f)) :
    lookupNode (tu_copied env fs src dst) src = some (Node.file f) := by
  have h1 : lookupNode
      (setNode (if isSymlinkAt fs dst then removeNode fs dst else fs) dst
        (Node.file env.written)) src = some (Node.file f) := by
    rw [lookupNode_setNode_ne _ _ _ _ hne, tu_base_src _ _ _ hne]
    exact hsrc
  rw [tu_copied, copy_ownership_and_perms_eq _ _ _ _ h1,
    lookupNode_updateMeta_ne _ _ _ _ hne]
  exact h1

theorem tu_copied_dst (env : CopyEnv) (fs : MoverFs) (src dst : Nat)
    (f : RegFile) (hne : src ≠ dst)
    (hsrc : lookupNode fs src = some (Node.file f)) :
    lookupNode (tu_copied env fs src dst) dst
      = some (Node.file { env.written with meta :=
          { env.written.meta with
              uid := f.meta.uid, gid := f.meta.gid, mode := f.meta.mode } }) := by
  have h1 : lookupNode
      (setNode (if isSymlinkAt fs dst then removeNode fs dst else fs) dst
        (Node.file env.written)) src = some (Node.file f) := by
    rw [lookupNode_setNode_ne _ _ _ _ hne, tu_base_src _ _ _ hne]
    exact hsrc
  rw [tu_copied, copy_ownership_and_perms_eq _ _ _ _ h1]
  exact lookupNode_updateMeta_self _ _ _ _ (lookupNode_setNode_self _ _ _)

/-- C1: in `tier_down` and `tier_up` the destructive steps are gated on
verification: the source is deleted (and, for a demotion, the symlink shim
installed at the old path) exactly when the two digests agree; on a
mismatch both source and destination files are left in place and no
symlink is created at the old path. -/
theorem tiering_destructive_steps_gated (env : CopyEnv) (fs : MoverFs)
    (src dst : Nat) (times : FTimes) (f : RegFile)
    (hne : src ≠ dst) (hsrc : lookupNode fs src = some (Node.file f)) :
    (tier_down_verify env fs src dst = true →
        lookupNode (tier_down env fs src dst times) src = some (Node.symlink dst))
    ∧ (tier_down_verify env fs src dst = false →
        lookupNode (tier_down env fs src dst times) src = some (Node.file f)
        ∧ (∃ g, lookupNode (tier_down env fs src dst times) dst = some (Node.file g))
        ∧ isSymlinkAt (tier_down env fs src dst times) src = false)
    ∧ (tier_up_verify env fs src dst = true →
        lookupNode (tier_up env fs src dst times) src = none)
    ∧ (tier_up_verify env fs src dst = false →
        lookupNode (tier_up env fs src dst times) src = some (Node.file f)
        ∧ ∃ g, lookupNode (tier_up env fs src dst times) dst = some (Node.file g)) := by
  have hdsrc := td_copied_src env fs src dst f hne hsrc
  have hddst := td_copied_dst env fs src dst f hne hsrc
  have husrc := tu_copied_src env fs src dst f hne hsrc
  have hudst := tu_copied_dst env fs src dst f hne hsrc
  refine ⟨?_, ?_, ?_, ?_⟩
  · intro hv
    rw [tier_down, if_pos hv, utimePath, lookupNode_updateMeta_ne _ _ _ _ hne,
      create_symlink]
    exact lookupNode_setNode_self _ _ _
  · intro hv
    rw [tier_down, if_neg (by simp [hv]), utimePath]
    refine ⟨?_, ?_, ?_⟩
    · rw [lookupNode_updateMeta_ne _ _ _ _ hne]
      exact hdsrc
    · exact ⟨_, lookupNode_updateMeta_self _ _ _ _ hddst⟩
    · rw [isSymlinkAt, lookupNode_updateMeta_ne _ _ _ _ hne, hdsrc]
  · intro hv
    rw [tier_up, if_pos hv, utimePath, lookupNode_updateMeta_ne _ _ _ _ hne]
    exact lookupNode_removeNode_self _ _
  · intro hv
    rw [tier_up, if_neg (by simp [hv]), utimePath]
    constructor
    · rw [lookupNode_updateMeta_ne _ _ _ _ hne]
      exact husrc
    · exact ⟨_, lookupNode_updateMeta_self _ _ _ _ hudst⟩

/-- Witness for `tiering_destructive_steps_gated`: a one-file filesystem,
an uncorrupted copy (so verification succeeds) — the shim replaces the
source. -/
theorem tiering_destructive_steps_gated_witness :
    lookupNode
      (tier_down ⟨fun c => c.length, ⟨[3, 4], true, ⟨0, 0, 0, 0, 0⟩⟩⟩
        (fun p => if p = 0 then some (Node.file ⟨[3, 4], true, ⟨10, 20, 30, 40, 50⟩⟩)
                  else none)
        0 1 ⟨40, 50⟩)
      0 = some (Node.symlink 1) := by
  have h := tiering_destructive_steps_gated
    ⟨fun c => c.length, ⟨[3, 4], true, ⟨0, 0, 0, 0, 0⟩⟩⟩
    (fun p => if p = 0 then some (Node.file ⟨[3, 4], true, ⟨10, 20, 30, 40, 50⟩⟩)
              else none)
    0 1 ⟨40, 50⟩ ⟨[3, 4], true, ⟨10, 20, 30, 40, 50⟩⟩ (by decide) rfl
  exact h.1 rfl

/-- C4: when verification succeeds, the destination of a move carries the
source's uid, gid and mode (applied by `copy_ownership_and_perms` from the
source's stat), and the access and modify times recorded for the source
before the move (`file.times`, applied by `utime`); `hrec` states that the
recorded times are the source's pre-move times. -/
theorem move_preserves_metadata (env : CopyEnv) (fs : MoverFs)
    (src dst : Nat) (times : FTimes) (f : RegFile)
    (hne : src ≠ dst) (hsrc : lookupNode fs src = some (Node.file f))
    (hrec : times = ⟨f.meta.atime, f.meta.mtime⟩) :
    (tier_down_verify env fs src dst = true →
      ∃ g, lookupNode (tier_down env fs src dst times) dst = some (Node.file g)
        ∧ g.meta.uid = f.meta.uid ∧ g.meta.gid = f.meta.gid
        ∧ g.meta.mode = f.meta.mode ∧ g.meta.atime = f.meta.atime
        ∧ g.meta.mtime = f.meta.mtime)
    ∧ (tier_up_verify env fs src dst = true →
      ∃ g, lookupNode (tier_up env fs src dst times) dst = some (Node.file g)
        ∧ g.meta.uid = f.meta.uid ∧ g.meta.gid = f.meta.gid
        ∧ g.meta.mode = f.meta.mode ∧ g.meta.atime = f.meta.atime
        ∧ g.meta.mtime = f.meta.mtime) := by
  have hddst := td_copied_dst env fs src dst f hne hsrc
  have hudst := tu_copied_dst env fs src dst f hne hsrc
  constructor
  · intro hv
    rw [tier_down, if_pos hv, utimePath]
    have hmid : lookupNode
        (create_symlink (removeNode (td_copied env fs src dst) src) dst src) dst
        = some (Node.file { env.written with meta :=
            { env.written.meta with
                uid := f.meta.uid, gid := f.meta.gid, mode := f.meta.mode } }) := by
      rw [create_symlink, lookupNode_setNode_ne _ _ _ _ (Ne.symm hne),
        lookupNode_removeNode_ne _ _ _ (Ne.symm hne)]
      exact hddst
    refine ⟨_, lookupNode_updateMeta_self _ _ _ _ hmid, ?_, ?_, ?_, ?_, ?_⟩
      <;> simp [hrec]
  · intro hv
    rw [tier_up, if_pos hv, utimePath]
    have hmid : lookupNode (removeNode (tu_copied env fs src dst) src) dst
        = some (Node.file { env.written with meta :=
            { env.written.meta with
                uid := f.meta.uid, gid := f.meta.gid, mode := f.meta.mode } }) := by
      rw [lookupNode_removeNode_ne _ _ _ (Ne.symm hne)]
      exact hudst
    refine ⟨_, lookupNode_updateMeta_self _ _ _ _ hmid, ?_, ?_, ?_, ?_, ?_⟩
      <;> simp [hrec]

/-- Witness for `move_preserves_metadata`: the same one-file filesystem;
after the demotion the destination carries uid 10, gid 20, mode 30 and the
recorded times 40/50. -/
theorem move_preserves_metadata_witness :
    ∃ g, lookupNode
        (tier_down ⟨fun c => c.length, ⟨[3, 4], true, ⟨0, 0, 0, 0, 0⟩⟩⟩
          (fun p => if p = 0 then some (Node.file ⟨[3, 4], true, ⟨10, 20, 30, 40, 50⟩⟩)
                    else none)
          0 1 ⟨40, 50⟩)
        1 = some (Node.file g)
      ∧ g.meta.uid = 10 ∧ g.meta.gid = 20 ∧ g.meta.mode = 30
      ∧ g.meta.atime = 40 ∧ g.meta.mtime = 50 := by
  have h := move_preserves_metadata
    ⟨fun c => c.length, ⟨[3, 4], true, ⟨0, 0, 0, 0, 0⟩⟩⟩
    (fun p => if p = 0 then some (Node.file ⟨[3, 4], true, ⟨10, 20, 30, 40, 50⟩⟩)
              else none)
    0 1 ⟨40, 50⟩ ⟨[3, 4], true, ⟨10, 20, 30, 40, 50⟩⟩ (by decide) rfl rfl
  exact h.1 rfl

/-- C5 fails on the code: when `statvfs` fails for the top tier,
`get_fs_usage` returns the sentinel `-1`, but `launch_crawlers` never
checks for it — the tier-up guard compares `-1 < min_watermark`, which
holds, so the pass goes on moving files (here: one copy, promoting the
bottom tier's file into the very tier whose budget is indeterminate)
instead of aborting. -/
theorem statvfs_failure_does_not_abort :
    (failFss 0).ok = false
    ∧ (launch_crawlers failTiers failDisk failFss).copies = 1 := by
  constructor
  · rfl
  · decide

/-- C9 fails on the code: with the top tier's `min_watermark` (90) above
its `max_watermark` (50) — a configuration `Config::verify` accepts — the
first pass promotes the file past the max watermark, and the second pass,
run on the unchanged filesystem state the first one left, performs TWO
byte copies (demoting the file and promoting it again) instead of zero. -/
theorem second_pass_not_idempotent :
    oscPass1.copies = 1 ∧ oscPass2.copies = 2 := by
  constructor <;> decide

theorem moveAllowed_ne (f : MFile) (d : Nat) (h : moveAllowed f d = true) :
    f.pinned_to ≠ some d := by
  rw [moveAllowed] at h
  rcases hp : f.pinned_to with _ | p
  · simp [hp]
  · rw [hp] at h
    simp only [Option.isNone_some, Bool.false_or, decide_eq_true_eq] at h
    exact h

theorem applyTierDown_disk_pinned (tiers : List PTier) (i : Nat) (f : MFile)
    (st : PassSt) (hall : moveAllowed f ((tiers.getD i default).dir) = true)
    (j : Nat) (g : MFile)
    (hpin : g.pinned_to = some ((tiers.getD j default).dir))
    (hmem : g ∈ st.disk j) :
    g ∈ (applyTierDown tiers i f st).disk j := by
  show g ∈ (if j = i then (st.disk i).erase f
            else if j = i + 1 then st.disk (i + 1) ++ [f] else st.disk j)
  by_cases hji : j = i
  · subst hji
    rw [if_pos rfl]
    have hne : g ≠ f := by
      intro hgf
      subst hgf
      exact moveAllowed_ne g _ hall hpin
    exact (List.mem_erase_of_ne hne).mpr hmem
  · rw [if_neg hji]
    by_cases hj1 : j = i + 1
    · subst hj1
      rw [if_pos rfl]
      exact List.mem_append_left _ hmem
    · rw [if_neg hj1]
      exact hmem

theorem applyTierDown_log_pinned (tiers : List PTier) (i : Nat) (f : MFile)
    (st : PassSt) (hall : moveAllowed f ((tiers.getD i default).dir) = true)
    (hlog : ∀ d g, (d, g) ∈ st.movedLog → g.pinned_to ≠ some d)
    (d : Nat) (g : MFile)
    (hmem : (d, g) ∈ (applyTierDown tiers i f st).movedLog) :
    g.pinned_to ≠ some d := by
  have hmem2 : (d, g) ∈ st.movedLog ++ [((tiers.getD i default).dir, f)] := hmem
  rcases List.mem_append.mp hmem2 with h | h
  · exact hlog d g h
  · simp only [List.mem_singleton, Prod.mk.injEq] at h
    obtain ⟨rfl, rfl⟩ := h
    exact moveAllowed_ne _ _ hall

theorem applyTierUp_disk_pinned (tiers : List PTier) (i : Nat) (f : MFile)
    (st : PassSt) (hall : moveAllowed f ((tiers.getD i default).dir) = true)
    (j : Nat) (g : MFile)
    (hpin : g.pinned_to = some ((tiers.getD j default).dir))
    (hmem : g ∈ st.disk j) :
    g ∈ (applyTierUp tiers i f st).disk j := by
  show g ∈ (if j = i then (st.disk i).erase f
            else if j = i - 1 then st.disk (i - 1) ++ [f] else st.disk j)
  by_cases hji : j = i
  · subst hji
    rw [if_pos rfl]
    have hne : g ≠ f := by
      intro hgf
      subst hgf
      exact moveAllowed_ne g _ hall hpin
    exact (List.mem_erase_of_ne hne).mpr hmem
  · rw [if_neg hji]
    by_cases hj1 : j = i - 1
    · subst hj1
      rw [if_pos rfl]
      exact List.mem_append_left _ hmem
    · rw [if_neg hj1]
      exact hmem

theorem applyTierUp_log_pinned (tiers : List PTier) (i : Nat) (f : MFile)
    (st : PassSt) (hall : moveAllowed f ((tiers.getD i default).dir) = true)
    (hlog : ∀ d g, (d, g) ∈ st.movedLog → g.pinned_to ≠ some d)
    (d : Nat) (g : MFile)
    (hmem : (d, g) ∈ (applyTierUp tiers i f st).movedLog) :
    g.pinned_to ≠ some d := by
  have hmem2 : (d, g) ∈ st.movedLog ++ [((tiers.getD i default).dir, f)] := hmem
  rcases List.mem_append.mp hmem2 with h | h
  · exact hlog d g h
  · simp only [List.mem_singleton, Prod.mk.injEq] at h
    obtain ⟨rfl, rfl⟩ := h
    exact moveAllowed_ne _ _ hall

theorem tierDownLoop_pinned (tiers : List PTier) (i : Nat) :
    ∀ (fuel : Nat) (st : PassSt),
      (∀ d g, (d, g) ∈ st.movedLog → g.pinned_to ≠ some d) →
      ((∀ d g, (d, g) ∈ (tierDownLoop tiers i fuel st).movedLog →
          g.pinned_to ≠ some d)
        ∧ ∀ j g, g.pinned_to = some ((tiers.getD j default).dir) →
            g ∈ st.disk j → g ∈ (tierDownLoop tiers i fuel st).disk j) := by
  intro fuel
  induction fuel with
  | zero =>
    intro st hlog
    exact ⟨hlog, fun j g _ hm => hm⟩
  | succ n ih =>
    intro st hlog
    simp only [tierDownLoop]
    split
    · exact ⟨hlog, fun j g _ hm => hm⟩
    · rename_i f hl
      split
      · split
        · rename_i hall
          have h1 := ih (applyTierDown tiers i f st)
            (fun d g hm => applyTierDown_log_pinned tiers i f st hall hlog d g hm)
          exact ⟨h1.1, fun j g hp hm =>
            h1.2 j g hp (applyTierDown_disk_pinned tiers i f st hall j g hp hm)⟩
        · exact ih (popBackAt i st) hlog
      · exact ⟨hlog, fun j g _ hm => hm⟩

theorem tierUpLoop_pinned (tiers : List PTier) (i : Nat) :
    ∀ (fuel : Nat) (st : PassSt),
      (∀ d g, (d, g) ∈ st.movedLog → g.pinned_to ≠ some d) →
      ((∀ d g, (d, g) ∈ (tierUpLoop tiers i fuel st).movedLog →
          g.pinned_to ≠ some d)
        ∧ ∀ j g, g.pinned_to = some ((tiers.getD j default).dir) →
            g ∈ st.disk j → g ∈ (tierUpLoop tiers i fuel st).disk j) := by
  intro fuel
  induction fuel with
  | zero =>
    intro st hlog
    exact ⟨hlog, fun j g _ hm => hm⟩
  | succ n ih =>
    intro st hlog
    simp only [tierUpLoop]
    split
    · exact ⟨hlog, fun j g _ hm => hm⟩
    · rename_i f hl
      split
      · split
        · rename_i hall
          have h1 := ih (applyTierUp tiers i f st)
            (fun d g hm => applyTierUp_log_pinned tiers i f st hall hlog d g hm)
          exact ⟨h1.1, fun j g hp hm =>
            h1.2 j g hp (applyTierUp_disk_pinned tiers i f st hall j g hp hm)⟩
        · exact ih (popFrontAt i st) hlog
      · exact ⟨hlog, fun j g _ hm => hm⟩

theorem foldDown_pinned (tiers : List PTier) (idxs : List Nat) :
    ∀ st : PassSt,
      (∀ d g, (d, g) ∈ st.movedLog → g.pinned_to ≠ some d) →
      ((∀ d g,
          (d, g) ∈ (idxs.foldl (fun s i => tierDownTier tiers i s) st).movedLog →
          g.pinned_to ≠ some d)
        ∧ ∀ j g, g.pinned_to = some ((tiers.getD j default).dir) →
            g ∈ st.disk j →
            g ∈ (idxs.foldl (fun s i => tierDownTier tiers i s) st).disk j) := by
  induction idxs with
  | nil =>
    intro st hlog
    exact ⟨hlog, fun j g _ hm => hm⟩
  | cons i rest ih =>
    intro st hlog
    simp only [List.foldl_cons]
    have h1 := tierDownLoop_pinned tiers i (st.lists i).length st hlog
    have h2 := ih (tierDownTier tiers i st) h1.1
    exact ⟨h2.1, fun j g hp hm => h2.2 j g hp (h1.2 j g hp hm)⟩

theorem foldUp_pinned (tiers : List PTier) (idxs : List Nat) :
    ∀ st : PassSt,
      (∀ d g, (d, g) ∈ st.movedLog → g.pinned_to ≠ some d) →
      ((∀ d g,
          (d, g) ∈ (idxs.foldl (fun s i => tierUpTier tiers i s) st).movedLog →
          g.pinned_to ≠ some d)
        ∧ ∀ j g, g.pinned_to = some ((tiers.getD j default).dir) →
            g ∈ st.disk j →
            g ∈ (idxs.foldl (fun s i => tierUpTier tiers i s) st).disk j) := by
  induction idxs with
  | nil =>
    intro st hlog
    exact ⟨hlog, fun j g _ hm => hm⟩
  | cons i rest ih =>
    intro st hlog
    simp only [List.foldl_cons]
    have h1 := tierUpLoop_pinned tiers i (st.lists i).length st hlog
    have h2 := ih (tierUpTier tiers i st) h1.1
    exact ⟨h2.1, fun j g hp hm => h2.2 j g hp (h1.2 j g hp hm)⟩

/-- C10: a file whose `pinned_to` is non-empty and equal to its tier's
directory is never handed to `tier_down` or `tier_up` during a pass
(every logged move is of a file NOT pinned to the tier it was moved from,
by the guard `pinned_to.empty() || pinned_to != tptr->dir`), and such a
file is still on its tier's disk when the pass ends. -/
theorem pinned_files_never_moved (tiers : List PTier)
    (disk : Nat → List MFile) (fss : Nat → TierFs) :
    (∀ d f, (d, f) ∈ (launch_crawlers tiers disk fss).movedLog →
        f.pinned_to ≠ some d)
    ∧ ∀ j f, f.pinned_to = some ((tiers.getD j default).dir) → f ∈ disk j →
        f ∈ (launch_crawlers tiers disk fss).disk j := by
  have h0 : ∀ d g, (d, g) ∈ ([] : List (Nat × MFile)) → g.pinned_to ≠ some d :=
    fun d g hm => absurd hm (List.not_mem_nil _)
  have hdown := foldDown_pinned tiers (List.range (tiers.length - 1))
    { lists := fun j => sortFiles (disk j)
      disk := disk
      fss := fss
      copies := 0
      movedLog := [] } h0
  have hup := foldUp_pinned tiers
    ((List.range (tiers.length - 1)).reverse.map (fun k => k + 1))
    (tierDownPhase tiers
      { lists := fun j => sortFiles (disk j)
        disk := disk
        fss := fss
        copies := 0
        movedLog := [] }) hdown.1
  exact ⟨hup.1, fun j f hp hm => hup.2 j f hp (hdown.2 j f hp hm)⟩

/-- Witness for `pinned_files_never_moved`: one file pinned to the top
tier's directory (7) on an over-watermark top tier; after the pass it is
still on the top tier's disk. -/
theorem pinned_files_never_moved_witness :
    (⟨2, 60, 5, ⟨5, 5⟩, some 7⟩ : MFile) ∈
      (launch_crawlers [⟨7, 50, 50⟩, ⟨8, 100, 0⟩]
        (fun j => if j = 0 then [⟨2, 60, 5, ⟨5, 5⟩, some 7⟩] else [])
        (fun _ => ⟨true, ⟨100, 10, 1⟩⟩)).disk 0 :=
  (pinned_files_never_moved [⟨7, 50, 50⟩, ⟨8, 100, 0⟩]
      (fun j => if j = 0 then [⟨2, 60, 5, ⟨5, 5⟩, some 7⟩] else [])
      (fun _ => ⟨true, ⟨100, 10, 1⟩⟩)).2
    0 ⟨2, 60, 5, ⟨5, 5⟩, some 7⟩ (by decide) (by decide)

/-- C7 fails on the code: `verify_copy` never checks that `open`
succeeded; when neither path can be opened both digests are taken over the
empty stream, they agree, and verification reports SUCCESS — the claim
that verification cannot succeed for an unopenable file is violated (and
`tier_down` would go on to delete the source). -/
theorem verify_copy_succeeds_when_unopenable :
    openRead (fun _ => none) 0 = none
    ∧ openRead (fun _ => none) 1 = none
    ∧ verify_copy (fun c => c.length) (fun _ => none) 0 1 = true := by
  exact ⟨rfl, rfl, rfl⟩

end Autotier
